import Mathlib

/-!
Verification of the core algorithms of the ESP32-S3 smart-light firmware.

The development shallowly embeds three modules of the firmware and proves the
specified properties about them:

* the PM2.5 serial frame decoder (`src/lib/pm2dot5/getPM2dot5.cpp`):
  a byte-at-a-time state machine assembling 4-byte checksummed frames;
* the brightness controller and motion latch
  (`src/lib/brightnessConfig/brightnessConfig.cpp`): ambient-light
  classification, motion timeout, and the eased rising/falling curve engine;
* the battery percentage estimator (`src/lib/adcReading/adcReading.cpp`):
  a piecewise-linear map from millivolts to percent.

Machine integers are modelled as `Nat`/`Int` with explicit reductions where
the C code converts between widths: the `uint16_t` cast in the concentration
formula is `% 65536`, the `uint8_t` conversions in the curve engine are
`% 256`, and `uint32_t` time subtraction is performed modulo `2 ^ 32`.
The C curve engine computes the eased progress in single-precision float and
then truncates toward zero when converting to `uint8_t`.  The float
arithmetic is embedded exactly: `fl32Pair` implements IEEE-754 binary32
rounding (round to nearest, ties to even, subnormals included) on exact
rationals represented as numerator/denominator pairs of naturals, and each
float operator of the source is modelled as the exact operation followed by
one `fl32Pair` rounding (the straightforward unfused evaluation of the C
expressions, with no intermediate double promotion or fused multiply-add).
-/

namespace LightProject

/-! ### PM2.5 frame decoder (getPM2dot5.cpp) -/

/-- Frame header constant `PM25_HEADER` (0xA5). -/
def PM25_HEADER : Nat := 165

/-- Packet size constant `PM25_PACKET_SIZE`. -/
def PM25_PACKET_SIZE : Nat := 4

/-- Decoder state: the static variables of getPM2dot5.cpp together with the
two globals written by `process_packet`. -/
structure PMState where
  rx_buffer : List Nat
  buffer_index : Nat
  header_found : Bool
  pm25_concentration : Nat
  pm25_data_ready : Bool
deriving DecidableEq

/-- State after `pm25_init` (static storage is zero-initialised, and
`pm25_init` resets the index, flags and concentration). -/
def pm25Init : PMState :=
  { rx_buffer := [0, 0, 0, 0], buffer_index := 0, header_found := false,
    pm25_concentration := 0, pm25_data_ready := false }

/-- `validate_packet`: the low 7 bits of the sum of the first three bytes
must equal the checksum byte. -/
def validate_packet (header dataH dataL checksum : Nat) : Bool :=
  (header + dataH + dataL) % 128 == checksum

/-- `calculate_concentration`: `(uint16_t)(dataH * 128 + dataL)`. -/
def calculate_concentration (dataH dataL : Nat) : Nat :=
  (dataH * 128 + dataL) % 65536

/-- `process_packet`: validate the 4 buffered bytes; on success store the
concentration and set the data-ready flag.  The second component is the
concentration produced by this packet, if any. -/
def process_packet (s : PMState) : PMState × Option Nat :=
  let header := s.rx_buffer.getD 0 0
  let dataH := s.rx_buffer.getD 1 0
  let dataL := s.rx_buffer.getD 2 0
  let checksum := s.rx_buffer.getD 3 0
  if validate_packet header dataH dataL checksum then
    let c := calculate_concentration dataH dataL
    ({ s with pm25_concentration := c, pm25_data_ready := true }, some c)
  else
    (s, none)

/-- One iteration of the `while (Serial2.available())` loop body of
`pm25_update`, fed a single received byte. -/
def pm25Step (s : PMState) (b : Nat) : PMState × Option Nat :=
  if s.header_found = false then
    if b = PM25_HEADER then
      ({ s with rx_buffer := s.rx_buffer.set 0 b, buffer_index := 1, header_found := true }, none)
    else
      (s, none)
  else
    let s1 : PMState :=
      { s with rx_buffer := s.rx_buffer.set s.buffer_index b, buffer_index := s.buffer_index + 1 }
    if PM25_PACKET_SIZE ≤ s1.buffer_index then
      let r := process_packet s1
      ({ r.1 with buffer_index := 0, header_found := false }, r.2)
    else
      (s1, none)

/-- `pm25_update` on a whole list of pending bytes, collecting the
concentrations of all frames that validated. -/
def feedAll : List Nat → PMState → PMState × List Nat
  | [], s => (s, [])
  | b :: bs, s =>
    let r := pm25Step s b
    let rest := feedAll bs r.1
    (rest.1, r.2.toList ++ rest.2)

/-- Index into `rx_buffer` that `pm25Step` would store the next byte at
(`none` when the byte is discarded during header search): a header byte goes
to index 0, a payload byte to the current `buffer_index`. -/
def writeIndex (s : PMState) (b : Nat) : Option Nat :=
  if s.header_found = false then
    if b = PM25_HEADER then some 0 else none
  else
    some s.buffer_index

/-! ### Brightness controller and motion latch (brightnessConfig.cpp) -/

/-- Controller state: the globals and static variables of
brightnessConfig.cpp.  Times are `uint32_t` millisecond counts, brightness
values are `uint8_t`. -/
structure BState where
  isMove : Bool
  lastMotionTime : Nat
  currentBrightness : Nat
  targetBrightness : Nat
  baseBrightness : Nat
  brightnessStep : Nat
  isRising : Bool
  isFalling : Bool
  startBrightness : Nat
deriving DecidableEq

/-- State set up by `brightnessInit`. -/
def brightnessInit : BState :=
  { isMove := false, lastMotionTime := 0, currentBrightness := 0, targetBrightness := 0,
    baseBrightness := 0, brightnessStep := 0, isRising := false, isFalling := false,
    startBrightness := 0 }

/-- Modulus of `uint32_t` arithmetic. -/
def UINT32_MOD : Nat := 4294967296

/-- `uint32_t` subtraction `a - b` (wrap-around). -/
def sub32 (a b : Nat) : Nat :=
  (a % UINT32_MOD + (UINT32_MOD - b % UINT32_MOD)) % UINT32_MOD

/-- `motionTimeout` (5000 ms). -/
def motionTimeout : Nat := 5000

/-- `motionISR`: PIR edge interrupt; records the trigger flag and time. -/
def motionISR (now : Nat) (s : BState) : BState :=
  { s with isMove := true, lastMotionTime := now % UINT32_MOD }

/-- `key1ISR`: manual trigger button, same effect as `motionISR`. -/
def key1ISR (now : Nat) (s : BState) : BState :=
  { s with isMove := true, lastMotionTime := now % UINT32_MOD }

/-- `key2ISR`: manual clear button; force-clears the motion flag. -/
def key2ISR (s : BState) : BState :=
  { s with isMove := false }

/-- Step 1 of `updateBrightness`: lazily expire the motion flag when more
than `motionTimeout` milliseconds have elapsed since the last trigger. -/
def expireMotion (now : Nat) (s : BState) : BState :=
  if s.isMove = true ∧ motionTimeout < sub32 now s.lastMotionTime then
    { s with isMove := false }
  else
    s

/-- Motion query: the value of `isMove` right after the expiry check of
`updateBrightness` runs at time `now`. -/
def isActiveAt (now : Nat) (s : BState) : Bool :=
  (expireMotion now s).isMove

/-- `calculateBaseBrightness`: the fixed lux threshold table
(500 / 300 / 100 lux mapping to 0 / 50 / 80 / 110). -/
def calculateBaseBrightness (lux : ℚ) : Nat :=
  if 500 ≤ lux then 0
  else if 300 ≤ lux then 50
  else if 100 ≤ lux then 80
  else 110

/-- Step 2 of `updateBrightness`: target selection (255 when base is positive
and motion is active, otherwise the base brightness). -/
def selectTarget (s : BState) : BState :=
  if 0 < s.baseBrightness ∧ s.isMove = true then
    { s with targetBrightness := 255 }
  else
    { s with targetBrightness := s.baseBrightness }

/-- Step 3 of `updateBrightness`: start a new rising or falling run when the
target moved away from the current value and the matching phase flag is not
already (exclusively) set. -/
def restartPhase (s : BState) : BState :=
  if s.targetBrightness ≠ s.currentBrightness then
    if s.currentBrightness < s.targetBrightness then
      if s.isRising = false ∨ s.isFalling = true then
        { s with isRising := true, isFalling := false, brightnessStep := 0,
                 startBrightness := s.currentBrightness }
      else
        s
    else
      if s.isFalling = false ∨ s.isRising = true then
        { s with isFalling := true, isRising := false, brightnessStep := 0,
                 startBrightness := s.currentBrightness }
      else
        s
  else
    s

/-- `BRIGHTNESS_UP_STEPS` (2 s of 50 ms ticks). -/
def BRIGHTNESS_UP_STEPS : Nat := 40

/-- `BRIGHTNESS_DOWN_STEPS` (3 s of 50 ms ticks). -/
def BRIGHTNESS_DOWN_STEPS : Nat := 60

/-- Binary normalisation step for `fl32Pair`: repeatedly double the smaller
side of the fraction `n / d` until it lies in `[1, 2)`, tracking the binary
exponent.  The fuel (400 at the call site) covers the whole binary32
exponent range with margin; the values arising in this development stay
within `2 ^ ±60`. -/
def normQ : ℕ → ℕ → ℕ → ℤ → ℕ × ℕ × ℤ
  | 0, n, d, e => (n, d, e)
  | fuel + 1, n, d, e =>
    if 2 * d ≤ n then normQ fuel n (2 * d) (e + 1)
    else if n < d then normQ fuel (2 * n) d (e - 1)
    else (n, d, e)

/-- Round the fraction `a / d` (with `d ≠ 0`) to the nearest integer, ties
to even — the IEEE-754 default rounding applied to a scaled significand. -/
def rneDiv (a d : ℕ) : ℕ :=
  let q := a / d
  let r := a % d
  if 2 * r < d then q
  else if d < 2 * r then q + 1
  else if q % 2 = 0 then q else q + 1

/-- Exact IEEE-754 binary32 rounding of the non-negative rational `n / d`
(`d ≠ 0`): the result, again as a numerator/denominator pair, is the nearest
single-precision value (24-bit significand, ties to even; values below
`2 ^ -126` round on the fixed subnormal grid of spacing `2 ^ -149`).
Overflow to infinity is not modelled; every value in this development is far
below the threshold. -/
def fl32Pair (n d : ℕ) : ℕ × ℕ :=
  if n = 0 then (0, 1)
  else
    let t := normQ 400 n d 0
    if t.2.2 < -126 then
      (rneDiv (n * 2 ^ 149) d, 2 ^ 149)
    else
      let M := rneDiv (t.1 * 8388608) t.2.1
      if 0 ≤ t.2.2 then (M * 2 ^ t.2.2.toNat, 8388608)
      else (M, 8388608 * 2 ^ (-t.2.2).toNat)

/-- The value `(uint8_t)((float)delta * progress)` of the rising branch,
evaluated in exact binary32 arithmetic: `progress` is first
`(float)k / (float)40` (one rounding; the two int-to-float conversions are
exact for these ranges) and then `progress * progress` (one rounding); the
final product gets one rounding and the `uint8_t` cast truncates toward
zero. -/
def truncRise (delta k : ℕ) : ℕ :=
  let p1 := fl32Pair k (BRIGHTNESS_UP_STEPS)
  let p2 := fl32Pair (p1.1 * p1.1) (p1.2 * p1.2)
  let v := fl32Pair (delta * p2.1) p2.2
  v.1 / v.2

/-- The value `(uint8_t)((float)delta * progress)` of the falling branch in
exact binary32 arithmetic, where `progress` is
`1.0f - (1.0f - (float)k / (float)60) ^ 2` with one rounding per operator
(division, subtraction, multiplication, subtraction).  Faithful on the
branch's domain `k ≤ 60`, where every intermediate value is non-negative. -/
def truncFall (delta k : ℕ) : ℕ :=
  let p1 := fl32Pair k (BRIGHTNESS_DOWN_STEPS)
  let t1 := fl32Pair (p1.2 - p1.1) p1.2
  let t2 := fl32Pair (t1.1 * t1.1) (t1.2 * t1.2)
  let p := fl32Pair (t2.2 - t2.1) t2.2
  let v := fl32Pair (delta * p.1) p.2
  v.1 / v.2

/-- Rising-curve evaluation at step `k`:
`start + (uint8_t)((float)(target - start) * progress)` with the binary32
product truncated toward zero; the final `% 256` is the `uint8_t` store. -/
def riseCurveValue (start target k : Nat) : Nat :=
  (start + truncRise (target - start) k) % 256

/-- Falling-curve evaluation at step `k`:
`start - (uint8_t)((start - target) * (1 - (1 - k / 60) ^ 2))` with the
binary32 product truncated toward zero. -/
def fallCurveValue (start target k : Nat) : Nat :=
  (start - truncFall (start - target) k) % 256

/-- Step 4 of `updateBrightness`: advance the active curve while the boundary
condition still holds; snap to the target and clear the phase flag once the
step counter exceeds the fixed total; otherwise clear both phase flags. -/
def advanceCurve (s : BState) : BState :=
  if s.isRising = true ∧ s.currentBrightness < s.targetBrightness then
    if s.brightnessStep + 1 ≤ BRIGHTNESS_UP_STEPS then
      { s with brightnessStep := s.brightnessStep + 1,
               currentBrightness :=
                 riseCurveValue s.startBrightness s.targetBrightness (s.brightnessStep + 1) }
    else
      { s with brightnessStep := s.brightnessStep + 1,
               currentBrightness := s.targetBrightness, isRising := false }
  else if s.isFalling = true ∧ s.targetBrightness < s.currentBrightness then
    if s.brightnessStep + 1 ≤ BRIGHTNESS_DOWN_STEPS then
      { s with brightnessStep := s.brightnessStep + 1,
               currentBrightness :=
                 fallCurveValue s.startBrightness s.targetBrightness (s.brightnessStep + 1) }
    else
      { s with brightnessStep := s.brightnessStep + 1,
               currentBrightness := s.targetBrightness, isFalling := false }
  else
    { s with isRising := false, isFalling := false }

/-- `updateBrightness` at time `now`: expiry check, target selection, phase
restart, curve advance, in that order. -/
def updateBrightness (now : Nat) (s : BState) : BState :=
  advanceCurve (restartPhase (selectTarget (expireMotion now s)))

/-- `calculatePerceivedBrightness`: refresh the base brightness from the
ambient lux reading, then run `updateBrightness`. -/
def calculatePerceivedBrightness (lux : ℚ) (now : Nat) (s : BState) : BState :=
  updateBrightness now { s with baseBrightness := calculateBaseBrightness lux }

/-- One tick of the scenario of §8 of the specification: ambient lux fixed at
50 (base 110), motion never triggered, time immaterial. -/
def c6tick (s : BState) : BState := calculatePerceivedBrightness 50 0 s

/-- Iterated `c6tick` from the initial state. -/
def c6iter : Nat → BState
  | 0 => brightnessInit
  | n + 1 => c6tick (c6iter n)

/-- Closed form of the state after `k` ticks of the lux-50 scenario, for
`1 ≤ k ≤ 40`: rising from 0 toward 110 with `current = ⌊110 k² / 1600⌋`. -/
def c6expected (k : Nat) : BState :=
  ⟨false, 0, 110 * k * k / 1600, 110, 110, k, true, false, 0⟩

/-- State of the lux-50 scenario from tick 41 on: settled at 110, idle. -/
def c6settled : BState :=
  ⟨false, 0, 110, 110, 110, 40, false, false, 0⟩

/-! ### Battery percentage (adcReading.cpp) -/

/-- Value of the local variable `percentage` of `calculateBatteryPercentage`
before the final clamp, i.e. the six-segment linear interpolation. -/
def batteryPercentageRaw (voltage_mV : ℤ) : ℤ :=
  if 4000 ≤ voltage_mV then 85 + ((voltage_mV - 4000) * 15) / 200
  else if 3800 ≤ voltage_mV then 60 + ((voltage_mV - 3800) * 25) / 200
  else if 3700 ≤ voltage_mV then 40 + ((voltage_mV - 3700) * 20) / 100
  else if 3600 ≤ voltage_mV then 20 + ((voltage_mV - 3600) * 20) / 100
  else if 3300 ≤ voltage_mV then 5 + ((voltage_mV - 3300) * 15) / 300
  else ((voltage_mV - 3000) * 5) / 300

/-- `calculateBatteryPercentage`: clamp below 3000 mV to 0 and at or above
4200 mV to 100, otherwise the interpolated value clamped into [0, 100]. -/
def calculateBatteryPercentage (voltage_mV : ℤ) : ℤ :=
  if voltage_mV ≤ 3000 then 0
  else if 4200 ≤ voltage_mV then 100
  else if batteryPercentageRaw voltage_mV < 0 then 0
  else if 100 < batteryPercentageRaw voltage_mV then 100
  else batteryPercentageRaw voltage_mV

/-! ### Frame decoder: helper lemmas -/

lemma getD_le_255 (l : List Nat) (h : ∀ x ∈ l, x ≤ 255) : ∀ i : Nat, l.getD i 0 ≤ 255 := by
  induction l with
  | nil =>
    intro i
    simp [List.getD]
  | cons a t ih =>
    intro i
    cases i with
    | zero => simpa using h a (by simp)
    | succ j =>
      simp only [List.getD_cons_succ]
      exact ih (fun x hx => h x (by simp [hx])) j

lemma set_le_255 (l : List Nat) (h : ∀ x ∈ l, x ≤ 255) (i b : Nat) (hb : b ≤ 255) :
    ∀ x ∈ l.set i b, x ≤ 255 := by
  intro x hx
  rcases List.mem_or_eq_of_mem_set hx with hx' | hx'
  · exact h x hx'
  · omega

lemma calculate_concentration_le (dataH dataL : Nat) (h1 : dataH ≤ 255) (h2 : dataL ≤ 255) :
    calculate_concentration dataH dataL ≤ 32895 := by
  unfold calculate_concentration
  have := Nat.mod_le (dataH * 128 + dataL) 65536
  omega

lemma process_packet_inv (s : PMState) (hs : ∀ x ∈ s.rx_buffer, x ≤ 255) :
    (process_packet s).1.rx_buffer = s.rx_buffer
    ∧ (∀ c, (process_packet s).2 = some c → c ≤ 32895) := by
  unfold process_packet
  by_cases hv : validate_packet (s.rx_buffer.getD 0 0) (s.rx_buffer.getD 1 0)
      (s.rx_buffer.getD 2 0) (s.rx_buffer.getD 3 0) = true
  · rw [if_pos hv]
    refine ⟨rfl, fun c hc => ?_⟩
    have hc' : calculate_concentration (s.rx_buffer.getD 1 0) (s.rx_buffer.getD 2 0) = c :=
      Option.some_injective _ hc
    rw [← hc']
    exact calculate_concentration_le _ _ (getD_le_255 _ hs 1) (getD_le_255 _ hs 2)
  · rw [if_neg hv]
    exact ⟨rfl, fun c hc => by simp at hc⟩

lemma pm25Step_inv (s : PMState) (b : Nat) (hb : b ≤ 255) (hs : ∀ x ∈ s.rx_buffer, x ≤ 255) :
    (∀ x ∈ (pm25Step s b).1.rx_buffer, x ≤ 255)
    ∧ (∀ c, (pm25Step s b).2 = some c → c ≤ 32895) := by
  unfold pm25Step
  by_cases hf : s.header_found = false
  · rw [if_pos hf]
    by_cases hbh : b = PM25_HEADER
    · rw [if_pos hbh]
      exact ⟨set_le_255 _ hs _ _ hb, fun c hc => by simp at hc⟩
    · rw [if_neg hbh]
      exact ⟨hs, fun c hc => by simp at hc⟩
  · rw [if_neg hf]
    have hinv1 : ∀ x ∈ (s.rx_buffer.set s.buffer_index b), x ≤ 255 := set_le_255 _ hs _ _ hb
    by_cases h4 : PM25_PACKET_SIZE ≤ s.buffer_index + 1
    · rw [if_pos h4]
      obtain ⟨hbuf, hout⟩ := process_packet_inv
        { s with rx_buffer := s.rx_buffer.set s.buffer_index b,
                 buffer_index := s.buffer_index + 1 } hinv1
      refine ⟨?_, hout⟩
      simpa [hbuf] using hinv1
    · rw [if_neg h4]
      exact ⟨hinv1, fun c hc => by simp at hc⟩

lemma feedAll_conc_le (bs : List Nat) :
    ∀ s : PMState, (∀ b ∈ bs, b ≤ 255) → (∀ x ∈ s.rx_buffer, x ≤ 255) →
      ∀ c ∈ (feedAll bs s).2, c ≤ 32895 := by
  induction bs with
  | nil =>
    intro s _ _ c hc
    simp [feedAll] at hc
  | cons b bs ih =>
    intro s hbs hs c hc
    have hb : b ≤ 255 := hbs b (by simp)
    obtain ⟨hinv, hout⟩ := pm25Step_inv s b hb hs
    simp only [feedAll, List.mem_append] at hc
    rcases hc with hc | hc
    · rw [Option.mem_toList, Option.mem_def] at hc
      exact hout c hc
    · exact ih (pm25Step s b).1 (fun x hx => hbs x (by simp [hx])) hinv c hc

/-- Decoder state invariant behind claim C10: whenever the header has been
found, the fill index is in [1, 3]. -/
def pmIdxInv (s : PMState) : Prop :=
  s.header_found = true → 1 ≤ s.buffer_index ∧ s.buffer_index ≤ 3

lemma pm25Step_idx_inv (s : PMState) (b : Nat) (h : pmIdxInv s) : pmIdxInv (pm25Step s b).1 := by
  unfold pmIdxInv pm25Step
  by_cases hf : s.header_found = false
  · rw [if_pos hf]
    by_cases hbh : b = PM25_HEADER
    · rw [if_pos hbh]
      intro
      exact ⟨by norm_num, by norm_num⟩
    · rw [if_neg hbh]
      exact h
  · rw [if_neg hf]
    have hft : s.header_found = true := by simpa using hf
    obtain ⟨h1, h3⟩ := h hft
    by_cases h4 : PM25_PACKET_SIZE ≤ s.buffer_index + 1
    · rw [if_pos h4]
      intro hcontra
      simp at hcontra
    · rw [if_neg h4]
      intro
      unfold PM25_PACKET_SIZE at h4
      show 1 ≤ s.buffer_index + 1 ∧ s.buffer_index + 1 ≤ 3
      omega

lemma feedAll_idx_inv (bs : List Nat) : ∀ s : PMState, pmIdxInv s → pmIdxInv (feedAll bs s).1 := by
  induction bs with
  | nil =>
    intro s h
    simpa [feedAll] using h
  | cons b bs ih =>
    intro s h
    simpa [feedAll] using ih (pm25Step s b).1 (pm25Step_idx_inv s b h)

/-! ### Claim C1 -/

/-- C1 counterexample: the stream `[0xA5, 0xFF, 0x00, 0x24]` passes checksum
validation (0xA5 + 0xFF + 0x00 = 0x1A4, low 7 bits 0x24) and produces the
concentration 0xFF * 128 + 0 = 32640, which exceeds 16383: the decoder does
not restrict the data bytes to 7-bit values. -/
theorem c1_counterexample :
    32640 ∈ (feedAll [165, 255, 0, 36] pm25Init).2 ∧ ¬(32640 ≤ 16383) := by
  exact ⟨by decide, by decide⟩

/-- C1 amended: every concentration produced from a stream of bytes (each at
most 255) is at most 255 * 128 + 255 = 32895; the 0..16383 bound of the claim
holds for the concentration formula exactly when both data bytes are 7-bit
values, which checksum validation does not enforce. -/
theorem c1_concentration_bound (bs : List Nat) (hbs : ∀ b ∈ bs, b ≤ 255) :
    (∀ c ∈ (feedAll bs pm25Init).2, c ≤ 32895)
    ∧ (∀ dataH dataL : Nat, dataH ≤ 127 → dataL ≤ 127 →
        calculate_concentration dataH dataL ≤ 16383) := by
  refine ⟨feedAll_conc_le bs pm25Init hbs (by simp [pm25Init]), ?_⟩
  intro dataH dataL h1 h2
  unfold calculate_concentration
  have := Nat.mod_le (dataH * 128 + dataL) 65536
  omega

/-- Witness for C1 at the valid frame `[0xA5, 0x01, 0x2C, 0x52]`. -/
theorem c1_concentration_bound_witness :
    172 ≤ 32895 ∧ calculate_concentration 100 100 ≤ 16383 :=
  ⟨(c1_concentration_bound [165, 1, 44, 82] (by decide)).1 172 (by decide),
   (c1_concentration_bound [165, 1, 44, 82] (by decide)).2 100 100 (by decide) (by decide)⟩

/-! ### Claim C2 -/

/-- C2 counterexample: the byte sequence `[0x00, 0x00, 0xA5, 0x01, 0x2C,
0x9E]` of the claim produces no frame at all, because the checksum byte of a
valid frame with header 0xA5 and data 0x01, 0x2C must be
(0xA5 + 0x01 + 0x2C) mod 128 = 0x52, not 0x9E. -/
theorem c2_counterexample :
    (feedAll [0, 0, 165, 1, 44, 158] pm25Init).2 = []
    ∧ validate_packet 165 1 44 158 = false := by
  exact ⟨by decide, by decide⟩

/-- C2 amended: with the checksum byte corrected to 0x52, feeding
`[0x00, 0x00, 0xA5, 0x01, 0x2C, 0x52]` from the initial state yields exactly
one valid frame (concentration 172), the two leading zero bytes are discarded
without any state change, and the decoder ends back in header search. -/
theorem c2_single_frame :
    (feedAll [0, 0, 165, 1, 44, 82] pm25Init).2 = [172]
    ∧ feedAll [0, 0] pm25Init = (pm25Init, [])
    ∧ (feedAll [0, 0, 165, 1, 44, 82] pm25Init).1.header_found = false
    ∧ (feedAll [0, 0, 165, 1, 44, 82] pm25Init).1.buffer_index = 0 := by
  exact ⟨by decide, by decide, by decide, by decide⟩

/-! ### Claim C4 -/

/-- C4: when the fourth buffered byte completes a frame whose checksum byte
differs from the low 7 bits of the sum of the first three bytes, no frame is
produced, the stored concentration and the data-ready flag are unchanged, and
the decoder returns to header search with index 0, ready to accept a header
at the very next byte. -/
theorem c4_invalid_frame_discarded (s : PMState) (x0 x1 x2 x3 b : Nat)
    (hbuf : s.rx_buffer = [x0, x1, x2, x3]) (hf : s.header_found = true)
    (hi : s.buffer_index = 3) (hmis : (x0 + x1 + x2) % 128 ≠ b) :
    (pm25Step s b).2 = none
    ∧ (pm25Step s b).1.pm25_concentration = s.pm25_concentration
    ∧ (pm25Step s b).1.pm25_data_ready = s.pm25_data_ready
    ∧ (pm25Step s b).1.header_found = false
    ∧ (pm25Step s b).1.buffer_index = 0
    ∧ (pm25Step (pm25Step s b).1 PM25_HEADER).1.header_found = true
    ∧ (pm25Step (pm25Step s b).1 PM25_HEADER).1.buffer_index = 1 := by
  have hv : validate_packet x0 x1 x2 b = false := by
    unfold validate_packet
    simpa using hmis
  have hstep : pm25Step s b =
      ({ s with rx_buffer := [x0, x1, x2, b], buffer_index := 0, header_found := false }, none) := by
    unfold pm25Step
    rw [hf, hi, hbuf]
    simp [process_packet, PM25_PACKET_SIZE, hv]
  rw [hstep]
  refine ⟨rfl, rfl, rfl, rfl, rfl, ?_, ?_⟩ <;>
    simp [pm25Step]

/-- Witness for C4: a concrete frame whose checksum byte 0 does not match the
required value 0x52. -/
theorem c4_invalid_frame_discarded_witness :
    (pm25Step ⟨[165, 1, 44, 0], 3, true, 7, true⟩ 0).2 = none
    ∧ (pm25Step ⟨[165, 1, 44, 0], 3, true, 7, true⟩ 0).1.pm25_concentration = 7
    ∧ (pm25Step ⟨[165, 1, 44, 0], 3, true, 7, true⟩ 0).1.pm25_data_ready = true
    ∧ (pm25Step ⟨[165, 1, 44, 0], 3, true, 7, true⟩ 0).1.header_found = false
    ∧ (pm25Step ⟨[165, 1, 44, 0], 3, true, 7, true⟩ 0).1.buffer_index = 0
    ∧ (pm25Step (pm25Step ⟨[165, 1, 44, 0], 3, true, 7, true⟩ 0).1 PM25_HEADER).1.header_found = true
    ∧ (pm25Step (pm25Step ⟨[165, 1, 44, 0], 3, true, 7, true⟩ 0).1 PM25_HEADER).1.buffer_index = 1 :=
  c4_invalid_frame_discarded ⟨[165, 1, 44, 0], 3, true, 7, true⟩ 165 1 44 0 0
    rfl rfl rfl (by decide)

/-! ### Claim C10 -/

/-- C10: from the initial state, after feeding any byte stream, the decoder
satisfies the invariant that a found header implies a fill index in [1, 3],
and consequently every index `pm25Step` would store the next byte at is
within the 4-byte buffer (a header byte always goes to index 0). -/
theorem c10_buffer_index_safe (bs : List Nat) (b i : Nat) :
    ((feedAll bs pm25Init).1.header_found = true →
      1 ≤ (feedAll bs pm25Init).1.buffer_index ∧ (feedAll bs pm25Init).1.buffer_index ≤ 3)
    ∧ (writeIndex (feedAll bs pm25Init).1 b = some i → i ≤ 3) := by
  have hinv : pmIdxInv (feedAll bs pm25Init).1 :=
    feedAll_idx_inv bs pm25Init (by intro h; simp [pm25Init] at h)
  refine ⟨hinv, fun hw => ?_⟩
  unfold writeIndex at hw
  by_cases hf : (feedAll bs pm25Init).1.header_found = false
  · rw [if_pos hf] at hw
    by_cases hb : b = PM25_HEADER
    · rw [if_pos hb] at hw
      have h0 : (0 : Nat) = i := Option.some_injective _ hw
      omega
    · rw [if_neg hb] at hw
      simp at hw
  · rw [if_neg hf] at hw
    have hft : (feedAll bs pm25Init).1.header_found = true := by simpa using hf
    obtain ⟨h1, h3⟩ := hinv hft
    have : (feedAll bs pm25Init).1.buffer_index = i := Option.some_injective _ hw
    omega

/-- Witness for C10 after feeding a lone header byte. -/
theorem c10_buffer_index_safe_witness :
    (1 ≤ (feedAll [165] pm25Init).1.buffer_index ∧ (feedAll [165] pm25Init).1.buffer_index ≤ 3)
    ∧ (1 : Nat) ≤ 3 :=
  ⟨(c10_buffer_index_safe [165] 0 1).1 (by decide),
   (c10_buffer_index_safe [165] 0 1).2 (by decide)⟩

/-! ### Battery percentage: helper lemmas -/

lemma raw_bounds (v : ℤ) (h1 : 3000 < v) (h2 : v < 4200) :
    0 ≤ batteryPercentageRaw v ∧ batteryPercentageRaw v ≤ 100 := by
  unfold batteryPercentageRaw
  split_ifs <;> constructor <;> omega

lemma raw_mono (v1 v2 : ℤ) (h1 : 3000 < v1) (h : v1 ≤ v2) (h2 : v2 < 4200) :
    batteryPercentageRaw v1 ≤ batteryPercentageRaw v2 := by
  unfold batteryPercentageRaw
  split_ifs <;> omega

lemma percent_low (v : ℤ) (h : v ≤ 3000) : calculateBatteryPercentage v = 0 := by
  unfold calculateBatteryPercentage
  rw [if_pos h]

lemma percent_high (v : ℤ) (h : 4200 ≤ v) : calculateBatteryPercentage v = 100 := by
  unfold calculateBatteryPercentage
  rw [if_neg (by omega), if_pos h]

lemma percent_mid (v : ℤ) (h1 : 3000 < v) (h2 : v < 4200) :
    calculateBatteryPercentage v = batteryPercentageRaw v := by
  obtain ⟨b1, b2⟩ := raw_bounds v h1 h2
  unfold calculateBatteryPercentage
  rw [if_neg (by omega), if_neg (by omega), if_neg (by omega), if_neg (by omega)]

lemma percent_nonneg (v : ℤ) : 0 ≤ calculateBatteryPercentage v := by
  rcases le_or_lt v 3000 with h | h
  · rw [percent_low v h]
  · rcases le_or_lt 4200 v with h' | h'
    · rw [percent_high v h']; omega
    · rw [percent_mid v h h']
      exact (raw_bounds v h h').1

lemma percent_le_100 (v : ℤ) : calculateBatteryPercentage v ≤ 100 := by
  rcases le_or_lt v 3000 with h | h
  · rw [percent_low v h]; omega
  · rcases le_or_lt 4200 v with h' | h'
    · rw [percent_high v h']
    · rw [percent_mid v h h']
      exact (raw_bounds v h h').2

/-! ### Claim C8 -/

/-- C8: for every integer voltage, `calculateBatteryPercentage` returns 0
below 3000 mV and 100 at or above 4200 mV, and is monotonically
non-decreasing in the voltage. -/
theorem c8_battery_percentage (v1 v2 : ℤ) :
    (v1 < 3000 → calculateBatteryPercentage v1 = 0)
    ∧ (4200 ≤ v1 → calculateBatteryPercentage v1 = 100)
    ∧ (v1 ≤ v2 → calculateBatteryPercentage v1 ≤ calculateBatteryPercentage v2) := by
  refine ⟨fun h => percent_low v1 (by omega), fun h => percent_high v1 h, fun h => ?_⟩
  rcases le_or_lt v1 3000 with h1 | h1
  · rw [percent_low v1 h1]
    exact percent_nonneg v2
  · rcases le_or_lt 4200 v2 with h2 | h2
    · rw [percent_high v2 h2]
      exact percent_le_100 v1
    · rw [percent_mid v1 h1 (by omega), percent_mid v2 (by omega) h2]
      exact raw_mono v1 v2 h1 h h2

/-- Witness for C8 at the concrete voltages 2500 mV and 4300 mV. -/
theorem c8_battery_percentage_witness :
    calculateBatteryPercentage 2500 = 0 ∧ calculateBatteryPercentage 4300 = 100 ∧
      calculateBatteryPercentage 2500 ≤ calculateBatteryPercentage 4300 :=
  ⟨(c8_battery_percentage 2500 4300).1 (by norm_num),
   (c8_battery_percentage 4300 2500).2.1 (by norm_num),
   (c8_battery_percentage 2500 4300).2.2 (by norm_num)⟩

/-! ### Claim C9 -/

/-- C9: between 3000 mV and 4200 mV the percentage follows six successive
linear-interpolation segments anchored at the breakpoints (3000,0), (3300,5),
(3600,20), (3700,40), (3800,60), (4000,85), (4200,100): each breakpoint maps
to exactly its anchored percentage, and within each closed segment the result
is the integer linear interpolation between the two anchors. -/
theorem c9_battery_breakpoints (v : ℤ) :
    (calculateBatteryPercentage 3000 = 0 ∧ calculateBatteryPercentage 3300 = 5 ∧
     calculateBatteryPercentage 3600 = 20 ∧ calculateBatteryPercentage 3700 = 40 ∧
     calculateBatteryPercentage 3800 = 60 ∧ calculateBatteryPercentage 4000 = 85 ∧
     calculateBatteryPercentage 4200 = 100)
    ∧ (3000 ≤ v → v ≤ 3300 → calculateBatteryPercentage v = 0 + ((v - 3000) * 5) / 300)
    ∧ (3300 ≤ v → v ≤ 3600 → calculateBatteryPercentage v = 5 + ((v - 3300) * 15) / 300)
    ∧ (3600 ≤ v → v ≤ 3700 → calculateBatteryPercentage v = 20 + ((v - 3600) * 20) / 100)
    ∧ (3700 ≤ v → v ≤ 3800 → calculateBatteryPercentage v = 40 + ((v - 3700) * 20) / 100)
    ∧ (3800 ≤ v → v ≤ 4000 → calculateBatteryPercentage v = 60 + ((v - 3800) * 25) / 200)
    ∧ (4000 ≤ v → v ≤ 4200 → calculateBatteryPercentage v = 85 + ((v - 4000) * 15) / 200) := by
  refine ⟨⟨by decide, by decide, by decide, by decide, by decide, by decide, by decide⟩,
    ?_, ?_, ?_, ?_, ?_, ?_⟩ <;> intro h1 h2
  · rcases eq_or_lt_of_le h1 with h | h
    · rw [percent_low v (by omega)]
      omega
    · rw [percent_mid v h (by omega)]
      unfold batteryPercentageRaw
      split_ifs <;> omega
  · rw [percent_mid v (by omega) (by omega)]
    unfold batteryPercentageRaw
    split_ifs <;> omega
  · rw [percent_mid v (by omega) (by omega)]
    unfold batteryPercentageRaw
    split_ifs <;> omega
  · rw [percent_mid v (by omega) (by omega)]
    unfold batteryPercentageRaw
    split_ifs <;> omega
  · rw [percent_mid v (by omega) (by omega)]
    unfold batteryPercentageRaw
    split_ifs <;> omega
  · rcases eq_or_lt_of_le h2 with h | h
    · subst h
      decide
    · rw [percent_mid v (by omega) h]
      unfold batteryPercentageRaw
      split_ifs <;> omega

/-- Witness for C9 inside the third segment, at 3650 mV. -/
theorem c9_battery_breakpoints_witness :
    calculateBatteryPercentage 3650 = 20 + ((3650 - 3600) * 20) / 100 :=
  (c9_battery_breakpoints 3650).2.2.2.1 (by norm_num) (by norm_num)

/-! ### Claim C5 -/

/-- C5: after a motion trigger at time `t0`, the motion query is true at
`t0 + timeout - 1`, false at `t0 + timeout + 1` (timeout = 5000 ms,
`uint32_t` wrap-around subtraction), and after `key2ISR` clears the flag the
very next query is false at every time. -/
theorem c5_motion_latch (t0 : Nat) (s : BState) :
    isActiveAt (t0 + motionTimeout - 1) (motionISR t0 s) = true
    ∧ isActiveAt (t0 + motionTimeout + 1) (motionISR t0 s) = false
    ∧ ∀ t : Nat, isActiveAt t (key2ISR (motionISR t0 s)) = false := by
  refine ⟨?_, ?_, fun t => ?_⟩
  · have hx : sub32 (t0 + 4999) (t0 % 4294967296) = 4999 := by
      simp only [sub32, UINT32_MOD]
      omega
    simp [isActiveAt, expireMotion, motionISR, motionTimeout, UINT32_MOD, hx]
  · have hx : sub32 (t0 + 5001) (t0 % 4294967296) = 5001 := by
      simp only [sub32, UINT32_MOD]
      omega
    simp [isActiveAt, expireMotion, motionISR, motionTimeout, UINT32_MOD, hx]
  · simp [isActiveAt, expireMotion, key2ISR, motionISR]

/-! ### Brightness curve engine: helper lemmas -/

lemma restartPhase_current (s : BState) :
    (restartPhase s).currentBrightness = s.currentBrightness := by
  unfold restartPhase
  split_ifs <;> rfl

lemma restartPhase_target (s : BState) :
    (restartPhase s).targetBrightness = s.targetBrightness := by
  unfold restartPhase
  split_ifs <;> rfl

lemma restartPhase_rising (s : BState) (h : s.currentBrightness < s.targetBrightness) :
    (restartPhase s).isRising = true ∧ (restartPhase s).isFalling = false := by
  unfold restartPhase
  rw [if_pos (show s.targetBrightness ≠ s.currentBrightness by omega), if_pos h]
  by_cases h3 : s.isRising = false ∨ s.isFalling = true
  · rw [if_pos h3]
    exact ⟨rfl, rfl⟩
  · rw [if_neg h3]
    push_neg at h3
    obtain ⟨ha, hb⟩ := h3
    exact ⟨by simpa using ha, by simpa using hb⟩

lemma restartPhase_falling (s : BState) (h : s.targetBrightness < s.currentBrightness) :
    (restartPhase s).isFalling = true ∧ (restartPhase s).isRising = false := by
  unfold restartPhase
  rw [if_pos (show s.targetBrightness ≠ s.currentBrightness by omega),
    if_neg (show ¬s.currentBrightness < s.targetBrightness by omega)]
  by_cases h3 : s.isFalling = false ∨ s.isRising = true
  · rw [if_pos h3]
    exact ⟨rfl, rfl⟩
  · rw [if_neg h3]
    push_neg at h3
    obtain ⟨ha, hb⟩ := h3
    exact ⟨by simpa using ha, by simpa using hb⟩

lemma advanceCurve_rising_spec (u : BState) (h1 : u.isRising = true)
    (h2 : u.currentBrightness < u.targetBrightness) :
    advanceCurve u =
      if u.brightnessStep + 1 ≤ BRIGHTNESS_UP_STEPS then
        { u with brightnessStep := u.brightnessStep + 1,
                 currentBrightness :=
                   riseCurveValue u.startBrightness u.targetBrightness (u.brightnessStep + 1) }
      else
        { u with brightnessStep := u.brightnessStep + 1,
                 currentBrightness := u.targetBrightness, isRising := false } := by
  unfold advanceCurve
  rw [if_pos ⟨h1, h2⟩]

lemma advanceCurve_falling_spec (u : BState) (h1 : u.isFalling = true)
    (h2 : u.targetBrightness < u.currentBrightness) :
    advanceCurve u =
      if u.brightnessStep + 1 ≤ BRIGHTNESS_DOWN_STEPS then
        { u with brightnessStep := u.brightnessStep + 1,
                 currentBrightness :=
                   fallCurveValue u.startBrightness u.targetBrightness (u.brightnessStep + 1) }
      else
        { u with brightnessStep := u.brightnessStep + 1,
                 currentBrightness := u.targetBrightness, isFalling := false } := by
  unfold advanceCurve
  rw [if_neg (by rintro ⟨_, hc⟩; omega), if_pos ⟨h1, h2⟩]

lemma advanceCurve_eq_spec (u : BState) (h : u.currentBrightness = u.targetBrightness) :
    advanceCurve u = { u with isRising := false, isFalling := false } := by
  unfold advanceCurve
  rw [if_neg (by rintro ⟨_, hc⟩; omega), if_neg (by rintro ⟨_, hc⟩; omega)]

/-! ### Claim C7 -/

/-- C7: after every brightness tick, whenever both phase flags are clear
(phase Idle), the current brightness equals the target brightness.  This is
proved for arbitrary starting states, so it holds in particular on every
reachable state and input sequence. -/
theorem c7_idle_implies_target (lux : ℚ) (now : Nat) (s : BState)
    (hR : (calculatePerceivedBrightness lux now s).isRising = false)
    (hF : (calculatePerceivedBrightness lux now s).isFalling = false) :
    (calculatePerceivedBrightness lux now s).currentBrightness
      = (calculatePerceivedBrightness lux now s).targetBrightness := by
  have hcp : calculatePerceivedBrightness lux now s
      = advanceCurve (restartPhase (selectTarget (expireMotion now
          { s with baseBrightness := calculateBaseBrightness lux }))) := rfl
  set s2 := selectTarget (expireMotion now
    { s with baseBrightness := calculateBaseBrightness lux }) with hs2
  rw [hcp] at hR hF ⊢
  rcases Nat.lt_trichotomy (restartPhase s2).currentBrightness
    (restartPhase s2).targetBrightness with hlt | heq | hgt
  · obtain ⟨hrise, _⟩ := restartPhase_rising s2
      (by rwa [restartPhase_current, restartPhase_target] at hlt)
    rw [advanceCurve_rising_spec (restartPhase s2) hrise hlt] at hR ⊢
    by_cases hk : (restartPhase s2).brightnessStep + 1 ≤ BRIGHTNESS_UP_STEPS
    · rw [if_pos hk] at hR
      simp [hrise] at hR
    · rw [if_neg hk]
  · rw [advanceCurve_eq_spec (restartPhase s2) heq]
    simpa using heq
  · obtain ⟨hfall, _⟩ := restartPhase_falling s2
      (by rwa [restartPhase_current, restartPhase_target] at hgt)
    rw [advanceCurve_falling_spec (restartPhase s2) hfall hgt] at hF ⊢
    by_cases hk : (restartPhase s2).brightnessStep + 1 ≤ BRIGHTNESS_DOWN_STEPS
    · rw [if_pos hk] at hF
      simp [hfall] at hF
    · rw [if_neg hk]

/-- Witness for C7: with bright ambient light (600 lux) from the initial
state, the tick ends Idle and the current brightness equals the target. -/
theorem c7_idle_implies_target_witness :
    (calculatePerceivedBrightness 600 0 brightnessInit).currentBrightness
      = (calculatePerceivedBrightness 600 0 brightnessInit).targetBrightness :=
  c7_idle_implies_target 600 0 brightnessInit (by decide) (by decide)

/-! ### Claim C3 -/

set_option maxRecDepth 4000

lemma truncRise_chunk0 : ∀ j : ℕ, j < 64 → ∀ k : ℕ, k < 41 →
    truncRise j k ≤ j * k * k / 1600 ∧ j * k * k / 1600 ≤ truncRise j k + 1 := by
  decide

lemma truncRise_chunk1 : ∀ j : ℕ, j < 64 → ∀ k : ℕ, k < 41 →
    truncRise (64 + j) k ≤ (64 + j) * k * k / 1600
      ∧ (64 + j) * k * k / 1600 ≤ truncRise (64 + j) k + 1 := by
  decide

lemma truncRise_chunk2 : ∀ j : ℕ, j < 64 → ∀ k : ℕ, k < 41 →
    truncRise (128 + j) k ≤ (128 + j) * k * k / 1600
      ∧ (128 + j) * k * k / 1600 ≤ truncRise (128 + j) k + 1 := by
  decide

lemma truncRise_chunk3 : ∀ j : ℕ, j < 64 → ∀ k : ℕ, k < 41 →
    truncRise (192 + j) k ≤ (192 + j) * k * k / 1600
      ∧ (192 + j) * k * k / 1600 ≤ truncRise (192 + j) k + 1 := by
  decide

/-- Exhaustive bracketing of the binary32 evaluation against the exact
truncation, over the whole domain the rising branch can reach: the float
result is never above the exact floor and at most one below it (one below
happens, e.g. at `delta = 100, k = 28`). -/
lemma truncRise_bracket (d k : ℕ) (hd : d ≤ 255) (hk : k ≤ 40) :
    truncRise d k ≤ d * k * k / 1600 ∧ d * k * k / 1600 ≤ truncRise d k + 1 := by
  rcases Nat.lt_or_ge d 64 with h | h
  · exact truncRise_chunk0 d h k (by omega)
  · rcases Nat.lt_or_ge d 128 with h2 | h2
    · have hx := truncRise_chunk1 (d - 64) (by omega) k (by omega)
      rwa [show 64 + (d - 64) = d by omega] at hx
    · rcases Nat.lt_or_ge d 192 with h3 | h3
      · have hx := truncRise_chunk2 (d - 128) (by omega) k (by omega)
        rwa [show 128 + (d - 128) = d by omega] at hx
      · have hx := truncRise_chunk3 (d - 192) (by omega) k (by omega)
        rwa [show 192 + (d - 192) = d by omega] at hx

/-- C3 amended: while rising with the incremented step count at most 40, a
tick of the curve stage sets the current brightness to `stepStart + t` where
`t` is the single-precision evaluation of
`(target - stepStart) * (stepCount / 40)²` truncated toward zero — not the
claimed rounding to nearest; `t` equals the exact truncation
`⌊(target - stepStart) * stepCount² / 1600⌋` or is one below it (the float
product can land just under an integer).  Once the step count exceeds 40 the
current brightness snaps to the target and the phase becomes Idle. -/
theorem c3_rising_truncates (s : BState) (hR : s.isRising = true) (hF : s.isFalling = false)
    (hcur : s.currentBrightness < s.targetBrightness)
    (hst : s.startBrightness ≤ s.targetBrightness) (ht : s.targetBrightness ≤ 255) :
    (s.brightnessStep + 1 ≤ 40 →
      (advanceCurve s).currentBrightness
        = s.startBrightness
            + truncRise (s.targetBrightness - s.startBrightness) (s.brightnessStep + 1)
      ∧ truncRise (s.targetBrightness - s.startBrightness) (s.brightnessStep + 1)
          ≤ (s.targetBrightness - s.startBrightness) * (s.brightnessStep + 1)
              * (s.brightnessStep + 1) / 1600
      ∧ (s.targetBrightness - s.startBrightness) * (s.brightnessStep + 1)
              * (s.brightnessStep + 1) / 1600
          ≤ truncRise (s.targetBrightness - s.startBrightness) (s.brightnessStep + 1) + 1
      ∧ (advanceCurve s).isRising = true)
    ∧ (40 < s.brightnessStep + 1 →
      (advanceCurve s).currentBrightness = s.targetBrightness
      ∧ (advanceCurve s).isRising = false ∧ (advanceCurve s).isFalling = false) := by
  rw [advanceCurve_rising_spec s hR hcur]
  constructor
  · intro hk
    obtain ⟨hb1, hb2⟩ := truncRise_bracket (s.targetBrightness - s.startBrightness)
      (s.brightnessStep + 1) (by omega) hk
    rw [if_pos (show s.brightnessStep + 1 ≤ BRIGHTNESS_UP_STEPS by
      simpa [BRIGHTNESS_UP_STEPS] using hk)]
    refine ⟨?_, hb1, hb2, by simp [hR]⟩
    show riseCurveValue s.startBrightness s.targetBrightness (s.brightnessStep + 1) = _
    unfold riseCurveValue
    have hkk : (s.brightnessStep + 1) * (s.brightnessStep + 1) ≤ 1600 := Nat.mul_le_mul hk hk
    have hdd : (s.targetBrightness - s.startBrightness) * (s.brightnessStep + 1) *
        (s.brightnessStep + 1) / 1600 ≤ s.targetBrightness - s.startBrightness := by
      rw [Nat.mul_assoc]
      calc (s.targetBrightness - s.startBrightness) * ((s.brightnessStep + 1) * (s.brightnessStep + 1))
            / 1600
          ≤ (s.targetBrightness - s.startBrightness) * 1600 / 1600 :=
            Nat.div_le_div_right (Nat.mul_le_mul_left _ hkk)
        _ = s.targetBrightness - s.startBrightness := Nat.mul_div_cancel _ (by norm_num)
    exact Nat.mod_eq_of_lt (by omega)
  · intro hk
    rw [if_neg (show ¬s.brightnessStep + 1 ≤ BRIGHTNESS_UP_STEPS by
      simp only [BRIGHTNESS_UP_STEPS]; omega)]
    exact ⟨by simp, by simp, by simp [hF]⟩

/-- Witness for C3 at a concrete rising state (start 0, target 110, step
counter about to become 3). -/
theorem c3_rising_truncates_witness :
    (advanceCurve ⟨false, 0, 0, 110, 110, 2, true, false, 0⟩).currentBrightness
        = 0 + truncRise 110 3
    ∧ truncRise 110 3 ≤ 110 * 3 * 3 / 1600
    ∧ 110 * 3 * 3 / 1600 ≤ truncRise 110 3 + 1
    ∧ (advanceCurve ⟨false, 0, 0, 110, 110, 2, true, false, 0⟩).isRising = true :=
  (c3_rising_truncates ⟨false, 0, 0, 110, 110, 2, true, false, 0⟩ rfl rfl (by decide)
    (by decide) (by decide)).1 (by decide)

/-! ### Claim C6 and claim C3: the lux-50 scenario trajectory -/

lemma c6cur_le (k : Nat) (hk : k ≤ 40) : 110 * k * k / 1600 ≤ 110 := by
  have hkk : k * k ≤ 1600 := Nat.mul_le_mul hk hk
  have h1 : 110 * k * k ≤ 110 * 1600 := by
    rw [Nat.mul_assoc]
    exact Nat.mul_le_mul_left 110 hkk
  calc 110 * k * k / 1600 ≤ 110 * 1600 / 1600 := Nat.div_le_div_right h1
    _ = 110 := by norm_num

lemma c6cur_lt (k : Nat) (hk : k < 40) : 110 * k * k / 1600 < 110 := by
  have hkk : k * k ≤ 1521 := Nat.mul_le_mul (show k ≤ 39 by omega) (show k ≤ 39 by omega)
  have h1 : 110 * k * k ≤ 167310 := by
    rw [Nat.mul_assoc]
    calc 110 * (k * k) ≤ 110 * 1521 := Nat.mul_le_mul_left 110 hkk
      _ = 167310 := by norm_num
  calc 110 * k * k / 1600 ≤ 167310 / 1600 := Nat.div_le_div_right h1
    _ = 104 := by norm_num
    _ < 110 := by norm_num

lemma c6base : calculateBaseBrightness 50 = 110 := by decide

/-- At delta 110 the binary32 evaluation agrees with the exact truncation at
every step of the rising curve. -/
lemma c6rise_values : ∀ j : ℕ, j < 40 →
    truncRise 110 (j + 1) = 110 * (j + 1) * (j + 1) / 1600 := by
  decide

lemma c6tick_expected (k : Nat) (hk1 : 1 ≤ k) (hk : k < 40) :
    c6tick (c6expected k) = c6expected (k + 1) := by
  have hlt : (c6expected k).currentBrightness < (c6expected k).targetBrightness := c6cur_lt k hk
  unfold c6tick calculatePerceivedBrightness updateBrightness
  have h0 : { c6expected k with baseBrightness := calculateBaseBrightness 50 } = c6expected k := by
    rw [c6base]
    rfl
  rw [h0]
  have h1 : expireMotion 0 (c6expected k) = c6expected k := by
    unfold expireMotion
    rw [if_neg]
    rintro ⟨hm, _⟩
    simp [c6expected] at hm
  rw [h1]
  have h2 : selectTarget (c6expected k) = c6expected k := by
    unfold selectTarget
    rw [if_neg (by rintro ⟨_, hm⟩; simp [c6expected] at hm)]
    rfl
  rw [h2]
  have h3 : restartPhase (c6expected k) = c6expected k := by
    unfold restartPhase
    rw [if_pos (show (c6expected k).targetBrightness ≠ (c6expected k).currentBrightness by
        show (110 : ℕ) ≠ 110 * k * k / 1600
        have := c6cur_lt k hk
        omega),
      if_pos hlt, if_neg]
    rintro (h | h) <;> simp [c6expected] at h
  rw [h3]
  rw [advanceCurve_rising_spec (c6expected k) rfl hlt]
  rw [if_pos (show (c6expected k).brightnessStep + 1 ≤ BRIGHTNESS_UP_STEPS by
    show k + 1 ≤ 40
    omega)]
  have hmod : riseCurveValue 0 110 (k + 1) = 110 * (k + 1) * (k + 1) / 1600 := by
    unfold riseCurveValue
    simp only [Nat.sub_zero, Nat.zero_add]
    rw [c6rise_values k hk]
    exact Nat.mod_eq_of_lt (lt_of_le_of_lt (c6cur_le (k + 1) (by omega)) (by norm_num))
  simp [c6expected, hmod]

lemma c6iter_eq (k : Nat) (hk1 : 1 ≤ k) (hk : k ≤ 40) : c6iter k = c6expected k := by
  induction k with
  | zero => omega
  | succ n ih =>
    rcases Nat.eq_zero_or_pos n with hn | hn
    · subst hn
      show c6tick (c6iter 0) = c6expected 1
      decide
    · have hih := ih hn (by omega)
      show c6tick (c6iter n) = c6expected (n + 1)
      rw [hih]
      exact c6tick_expected n hn (by omega)

lemma c6iter_41 : c6iter 41 = c6settled := by
  have h40 := c6iter_eq 40 (by norm_num) (by norm_num)
  show c6tick (c6iter 40) = c6settled
  rw [h40]
  decide

lemma c6tick_settled : c6tick c6settled = c6settled := by decide

lemma c6iter_stable (n : Nat) (hn : 41 ≤ n) : c6iter n = c6settled := by
  induction n with
  | zero => omega
  | succ m ih =>
    rcases Nat.lt_or_ge m 41 with hm | hm
    · have h41 : m + 1 = 41 := by omega
      rw [h41]
      exact c6iter_41
    · show c6tick (c6iter m) = c6settled
      rw [ih hm, c6tick_settled]

/-- C3 counterexample: after two lux-50 ticks from the initial state the
engine is Rising with stepStart 0, target 110 and step counter 2; the next
tick produces current brightness 0, whereas rounding the eased product to the
nearest integer as the claim states would give 0 + round(110 * (3/40)²) =
round(0.61875) = 1. -/
theorem c3_counterexample :
    (c6iter 2).isRising = true ∧ (c6iter 2).brightnessStep = 2
    ∧ (c6iter 2).startBrightness = 0 ∧ (c6iter 2).targetBrightness = 110
    ∧ ((c6tick (c6iter 2)).currentBrightness : ℤ)
        ≠ ((c6iter 2).startBrightness : ℤ)
          + round ((((c6iter 2).targetBrightness : ℚ) - ((c6iter 2).startBrightness : ℚ))
              * ((((c6iter 2).brightnessStep : ℚ) + 1) / 40) ^ 2) := by
  have h2 : c6iter 2 = c6expected 2 := c6iter_eq 2 (by norm_num) (by norm_num)
  have h3 : c6tick (c6iter 2) = c6expected 3 := by
    rw [h2]
    exact c6tick_expected 2 (by norm_num) (by norm_num)
  rw [h3, h2]
  refine ⟨rfl, rfl, rfl, rfl, ?_⟩
  have e1 : (c6expected 2).startBrightness = 0 := rfl
  have e2 : (c6expected 2).targetBrightness = 110 := rfl
  have e3 : (c6expected 2).brightnessStep = 2 := rfl
  have e4 : (c6expected 3).currentBrightness = 0 := by decide
  rw [e1, e2, e3, e4]
  have hr : round ((((110 : ℕ) : ℚ) - ((0 : ℕ) : ℚ)) * ((((2 : ℕ) : ℚ) + 1) / 40) ^ 2) = 1 := by
    rw [show ((((110 : ℕ) : ℚ) - ((0 : ℕ) : ℚ)) * ((((2 : ℕ) : ℚ) + 1) / 40) ^ 2)
        = 99 / 160 by push_cast; norm_num]
    rw [round_eq, show (99 : ℚ) / 160 + 1 / 2 = 179 / 160 by norm_num]
    rw [Int.floor_eq_iff]
    constructor <;> norm_num
  rw [hr]
  norm_num

/-! ### Claim C6 -/

/-- C6 amended: from the initial state with lux 50 (base 110) and motion
inactive, the per-tick brightness is monotonically non-decreasing, reaches
exactly 110 at the 40th tick, and the phase — still Rising on the tick that
reaches 110 — becomes Idle on the following tick, after which every further
tick leaves the whole state (hence brightness and phase) unchanged. -/
theorem c6_trajectory (n : Nat) :
    (n < 40 → (c6iter n).currentBrightness ≤ (c6iter (n + 1)).currentBrightness)
    ∧ (c6iter 40).currentBrightness = 110
    ∧ (c6iter 41).isRising = false ∧ (c6iter 41).isFalling = false
    ∧ (c6iter 41).currentBrightness = 110
    ∧ (41 ≤ n → c6iter n = c6iter 41) := by
  have h41 := c6iter_41
  refine ⟨?_, ?_, ?_, ?_, ?_, ?_⟩
  · intro hn
    rcases Nat.eq_zero_or_pos n with h0 | h0
    · subst h0
      exact Nat.zero_le _
    · rw [c6iter_eq n h0 (by omega), c6iter_eq (n + 1) (by omega) (by omega)]
      show 110 * n * n / 1600 ≤ 110 * (n + 1) * (n + 1) / 1600
      apply Nat.div_le_div_right
      have hm : n * n ≤ (n + 1) * (n + 1) := Nat.mul_le_mul (by omega) (by omega)
      calc 110 * n * n = 110 * (n * n) := by ring
        _ ≤ 110 * ((n + 1) * (n + 1)) := Nat.mul_le_mul_left 110 hm
        _ = 110 * (n + 1) * (n + 1) := by ring
  · rw [c6iter_eq 40 (by norm_num) (by norm_num)]
    decide
  · rw [h41]
    rfl
  · rw [h41]
    rfl
  · rw [h41]
    rfl
  · intro hn
    rw [c6iter_stable n hn, h41]

/-- Witness for C6 at ticks 3 and 45. -/
theorem c6_trajectory_witness :
    (c6iter 3).currentBrightness ≤ (c6iter 4).currentBrightness ∧ c6iter 45 = c6iter 41 :=
  ⟨(c6_trajectory 3).1 (by norm_num), (c6_trajectory 45).2.2.2.2.2 (by norm_num)⟩

/-- C6 counterexample: on the tick that first reaches brightness 110 (tick
40) the phase is still Rising, not Idle as the claim states; Idle is only
entered on tick 41. -/
theorem c6_counterexample :
    (c6iter 40).currentBrightness = 110 ∧ (c6iter 40).isRising = true := by
  rw [c6iter_eq 40 (by norm_num) (by norm_num)]
  exact ⟨by decide, rfl⟩

end LightProject
